import Mathlib

/-!
Verification of the SafeSolFun bonding-curve trading engine.

The definitions below are shallow embeddings of the TypeScript source:
* `BondingCurve` embeds `src/lib/solana.ts` (curve constants, price, quote
  and graduation functions).  JavaScript numbers are modelled as exact
  rationals (`ℚ`); `Math.floor` becomes `Int.floor`.
* `RugDetector` embeds the heuristic rug-risk scorer of `src/lib/solana.ts`.
* `buyRoute` / `sellRoute` embed the buy and sell API route handlers as
  pure state-transition functions over a `TradeState` (token row, the
  append-only transaction list, and the creator-fee accumulator for the
  token's (creator, tokenAddress) pair).
* `calculateRealTimeHolders` embeds the holder projection of the holders
  route; `generateRealTimePriceHistory` embeds the price-history
  aggregator route.  The JavaScript `Map` (insertion-ordered) is modelled
  as an association list updated in place.
-/

namespace BondingCurve

def TARGET_SUPPLY : ℚ := 800000000

def INITIAL_VIRTUAL_SOL_RESERVES : ℚ := 30

def INITIAL_VIRTUAL_TOKEN_RESERVES : ℚ := 1073000000

def GRADUATION_MARKET_CAP : ℚ := 30

/-- `calculatePrice` from `src/lib/solana.ts`. -/
def calculatePrice (currentSupply : ℚ) : ℚ :=
  if TARGET_SUPPLY ≤ currentSupply then
    GRADUATION_MARKET_CAP / TARGET_SUPPLY
  else
    let virtualTokenReserves := INITIAL_VIRTUAL_TOKEN_RESERVES - currentSupply
    if virtualTokenReserves ≤ 0 then 0
    else INITIAL_VIRTUAL_SOL_RESERVES / virtualTokenReserves

/-- `calculateTokensForSol` from `src/lib/solana.ts`; the thrown
`Token has graduated to DEX` error is modelled as `none`. -/
def calculateTokensForSol (solAmount currentSupply : ℚ) : Option ℚ :=
  if TARGET_SUPPLY ≤ currentSupply then none
  else
    let virtualSolReserves := INITIAL_VIRTUAL_SOL_RESERVES
    let virtualTokenReserves := INITIAL_VIRTUAL_TOKEN_RESERVES - currentSupply
    let k := virtualSolReserves * virtualTokenReserves
    let newTokenReserves := k / (virtualSolReserves + solAmount)
    let tokensOut := virtualTokenReserves - newTokenReserves
    some (⌊tokensOut⌋ : ℤ)

/-- `calculateSolForTokens` from `src/lib/solana.ts`; the thrown
`Token has graduated to DEX` error is modelled as `none`. -/
def calculateSolForTokens (tokenAmount currentSupply : ℚ) : Option ℚ :=
  if TARGET_SUPPLY ≤ currentSupply then none
  else
    let virtualSolReserves := INITIAL_VIRTUAL_SOL_RESERVES
    let virtualTokenReserves := INITIAL_VIRTUAL_TOKEN_RESERVES - currentSupply
    let k := virtualSolReserves * virtualTokenReserves
    let newSolReserves := k / (virtualTokenReserves + tokenAmount)
    let solOut := virtualSolReserves - newSolReserves
    some (max 0 solOut)

/-- `shouldGraduate` from `src/lib/solana.ts`. -/
def shouldGraduate (currentSupply marketCap : ℚ) : Bool :=
  TARGET_SUPPLY ≤ currentSupply || GRADUATION_MARKET_CAP ≤ marketCap

end BondingCurve

/-- C1: `calculatePrice` branch-by-branch: flat graduated price at or above
`TARGET_SUPPLY` (equal to `30 / 800000000`), `0` when the token-reserve term
is non-positive, and `30 / (1073000000 - supply)` otherwise. -/
theorem calculatePrice_cases (s : ℚ) (h : 0 ≤ s) :
    (BondingCurve.TARGET_SUPPLY ≤ s →
      BondingCurve.calculatePrice s =
        BondingCurve.GRADUATION_MARKET_CAP / BondingCurve.TARGET_SUPPLY ∧
      BondingCurve.calculatePrice s = 30 / 800000000) ∧
    (s < BondingCurve.TARGET_SUPPLY →
      ((1073000000 : ℚ) - s ≤ 0 → BondingCurve.calculatePrice s = 0) ∧
      (0 < (1073000000 : ℚ) - s →
        BondingCurve.calculatePrice s = 30 / (1073000000 - s))) := by
  constructor
  · intro hs
    constructor
    · simp [BondingCurve.calculatePrice, hs]
    · simp [BondingCurve.calculatePrice, hs]
      norm_num [BondingCurve.GRADUATION_MARKET_CAP, BondingCurve.TARGET_SUPPLY]
  · intro hs
    constructor
    · intro hr
      simp only [BondingCurve.calculatePrice, if_neg (not_le.mpr hs)]
      simp only [BondingCurve.INITIAL_VIRTUAL_TOKEN_RESERVES]
      rw [if_pos hr]
    · intro hr
      simp only [BondingCurve.calculatePrice, if_neg (not_le.mpr hs)]
      simp only [BondingCurve.INITIAL_VIRTUAL_TOKEN_RESERVES,
        BondingCurve.INITIAL_VIRTUAL_SOL_RESERVES]
      rw [if_neg (not_le.mpr hr)]

/-- Witness for C1 at `s = 5`. -/
theorem calculatePrice_cases_witness :
    (0 : ℚ) ≤ 5 ∧
    ((BondingCurve.TARGET_SUPPLY ≤ (5 : ℚ) →
      BondingCurve.calculatePrice 5 =
        BondingCurve.GRADUATION_MARKET_CAP / BondingCurve.TARGET_SUPPLY ∧
      BondingCurve.calculatePrice 5 = 30 / 800000000) ∧
    ((5 : ℚ) < BondingCurve.TARGET_SUPPLY →
      ((1073000000 : ℚ) - 5 ≤ 0 → BondingCurve.calculatePrice 5 = 0) ∧
      (0 < (1073000000 : ℚ) - 5 →
        BondingCurve.calculatePrice 5 = 30 / (1073000000 - 5)))) :=
  ⟨by norm_num, calculatePrice_cases 5 (by norm_num)⟩

/-- C10: for every non-negative supply, `calculatePrice` is strictly
positive, and below `TARGET_SUPPLY` the token-reserve term is strictly
positive (so the `return 0` branch is unreachable). -/
theorem calculatePrice_pos (s : ℚ) (h : 0 ≤ s) :
    0 < BondingCurve.calculatePrice s ∧
    (s < BondingCurve.TARGET_SUPPLY →
      0 < BondingCurve.INITIAL_VIRTUAL_TOKEN_RESERVES - s) := by
  refine ⟨?_, ?_⟩
  · unfold BondingCurve.calculatePrice
    split
    · norm_num [BondingCurve.GRADUATION_MARKET_CAP, BondingCurve.TARGET_SUPPLY]
    · rename_i hlt
      push_neg at hlt
      have hres : (0 : ℚ) < BondingCurve.INITIAL_VIRTUAL_TOKEN_RESERVES - s := by
        have : s < 1073000000 := lt_trans hlt (by
          norm_num [BondingCurve.TARGET_SUPPLY])
        simp only [BondingCurve.INITIAL_VIRTUAL_TOKEN_RESERVES]
        linarith
      rw [if_neg (not_le.mpr hres)]
      have h30 : (0 : ℚ) < BondingCurve.INITIAL_VIRTUAL_SOL_RESERVES := by
        norm_num [BondingCurve.INITIAL_VIRTUAL_SOL_RESERVES]
      exact div_pos h30 hres
  · intro hlt
    have : s < 1073000000 := lt_trans hlt (by
      norm_num [BondingCurve.TARGET_SUPPLY])
    simp only [BondingCurve.INITIAL_VIRTUAL_TOKEN_RESERVES]
    linarith

/-- Witness for C10 at `s = 0`. -/
theorem calculatePrice_pos_witness :
    (0 : ℚ) ≤ 0 ∧
    (0 < BondingCurve.calculatePrice 0 ∧
      ((0 : ℚ) < BondingCurve.TARGET_SUPPLY →
        0 < BondingCurve.INITIAL_VIRTUAL_TOKEN_RESERVES - 0)) :=
  ⟨le_refl 0, calculatePrice_pos 0 (le_refl 0)⟩

open BondingCurve in
/-- C2: a buy quote immediately reversed by a sell quote at the same curve
state never returns more SOL than was put in. -/
theorem roundTrip_no_profit (s x t y : ℚ) (hs0 : 0 ≤ s)
    (hs : s < TARGET_SUPPLY) (hx : 0 < x)
    (ht : calculateTokensForSol x s = some t)
    (hy : calculateSolForTokens t s = some y) : y ≤ x := by
  have hns : ¬ TARGET_SUPPLY ≤ s := not_le.mpr hs
  simp only [calculateTokensForSol, if_neg hns, Option.some.injEq] at ht
  simp only [calculateSolForTokens, if_neg hns, Option.some.injEq] at hy
  set R : ℚ := INITIAL_VIRTUAL_TOKEN_RESERVES - s with hRdef
  have hR : 0 < R := by
    have : s < 1073000000 := lt_trans hs (by norm_num [TARGET_SUPPLY])
    simp only [hRdef, INITIAL_VIRTUAL_TOKEN_RESERVES]
    linarith
  have h30x : (0 : ℚ) < 30 + x := by linarith
  have hsol : INITIAL_VIRTUAL_SOL_RESERVES = (30 : ℚ) := rfl
  rw [hsol] at ht hy
  -- the exact (un-floored) token output
  have htstar : R - 30 * R / (30 + x) = R * x / (30 + x) := by
    field_simp
    ring
  rw [htstar] at ht
  have htstar_nonneg : 0 ≤ R * x / (30 + x) :=
    div_nonneg (mul_nonneg hR.le hx.le) h30x.le
  have ht_le : t ≤ R * x / (30 + x) := by
    rw [← ht]
    exact_mod_cast Int.floor_le (R * x / (30 + x))
  have ht_nonneg : 0 ≤ t := by
    rw [← ht]
    exact_mod_cast Int.le_floor.mpr (by exact_mod_cast htstar_nonneg)
  have hRt : 0 < R + t := by linarith
  -- clear the denominator in the floor bound
  have hbound : t * (30 + x) ≤ R * x := by
    calc t * (30 + x) ≤ (R * x / (30 + x)) * (30 + x) := by
          exact mul_le_mul_of_nonneg_right ht_le h30x.le
      _ = R * x := by field_simp
  have h1 : 30 * t ≤ x * (R + t) := by nlinarith [mul_nonneg ht_nonneg hx.le]
  have e : 30 - 30 * R / (R + t) = (30 * t) / (R + t) := by
    field_simp
    ring
  have key : 30 - 30 * R / (R + t) ≤ x := by
    rw [e, div_le_iff hRt]
    linarith
  rw [← hy]
  exact max_le hx.le key

/-- Witness for C2 at `s = 0`, `solIn = 30`: the buy yields 536500000
tokens and selling them back at the same state returns only 10 SOL. -/
theorem roundTrip_no_profit_witness :
    BondingCurve.calculateTokensForSol 30 0 = some 536500000 ∧
    BondingCurve.calculateSolForTokens 536500000 0 = some 10 ∧
    (10 : ℚ) ≤ 30 := by
  have h1 : BondingCurve.calculateTokensForSol 30 0 = some 536500000 := by
    simp only [BondingCurve.calculateTokensForSol]
    rw [if_neg (by norm_num [BondingCurve.TARGET_SUPPLY])]
    norm_num [BondingCurve.INITIAL_VIRTUAL_SOL_RESERVES,
      BondingCurve.INITIAL_VIRTUAL_TOKEN_RESERVES]
  have h2 : BondingCurve.calculateSolForTokens 536500000 0 = some 10 := by
    simp only [BondingCurve.calculateSolForTokens]
    rw [if_neg (by norm_num [BondingCurve.TARGET_SUPPLY])]
    norm_num [BondingCurve.INITIAL_VIRTUAL_SOL_RESERVES,
      BondingCurve.INITIAL_VIRTUAL_TOKEN_RESERVES]
  exact ⟨h1, h2, roundTrip_no_profit 0 30 536500000 10 (by norm_num)
      (by norm_num [BondingCurve.TARGET_SUPPLY]) (by norm_num) h1 h2⟩

inductive TxType where
  | BUY
  | SELL
deriving DecidableEq

/-- The token row fields read and written by the buy/sell routes. -/
structure Token where
  currentSupply : ℚ
  price : ℚ
  marketCap : ℚ
  isGraduated : Bool
  graduatedAt : Option ℚ
  creatorAddress : String
  tokenAddress : String
deriving DecidableEq

/-- A `Transaction` row as created by the buy/sell routes. -/
structure TxRecord where
  userAddress : String
  type : TxType
  amount : ℚ
  solAmount : ℚ
  price : ℚ
deriving DecidableEq

/-- The mutable state a single trade touches: the token row, the
append-only transaction list, and the `totalFees` accumulator of the
token's `(creatorAddress, tokenAddress)` `CreatorFee` row. -/
structure TradeState where
  token : Token
  transactions : List TxRecord
  creatorFees : ℚ
deriving DecidableEq

inductive TradeError where
  | invalidAmount
  | missingAddress
  | graduatedToken
  | insufficientSupply
  | priceImpactExceeded
  | engineFailure
deriving DecidableEq

inductive TradeResult where
  | ok
  | err (e : TradeError)
deriving DecidableEq

/-- The buy route `POST` handler (the unnamed buy route source file),
as a pure state transition.  `now` is the clock value used for
`graduatedAt`.  Rejections return the state unchanged, mirroring the
early `return` before any database write. -/
def buyRoute (solAmount slippage : ℚ) (buyerAddress : String) (now : ℚ)
    (st : TradeState) : TradeState × TradeResult :=
  if solAmount ≤ 0 then (st, .err .invalidAmount)
  else if buyerAddress = "" then (st, .err .missingAddress)
  else if st.token.isGraduated then (st, .err .graduatedToken)
  else
    match BondingCurve.calculateTokensForSol solAmount st.token.currentSupply with
    | none => (st, .err .engineFailure)
    | some tokensToReceive =>
      let currentSupply := st.token.currentSupply
      let newSupply := currentSupply + tokensToReceive
      let newPrice := BondingCurve.calculatePrice newSupply
      let newMarketCap := st.token.marketCap + solAmount
      let expectedPrice := BondingCurve.calculatePrice currentSupply
      let actualPrice := solAmount / tokensToReceive
      let priceImpact := |(actualPrice - expectedPrice) / expectedPrice| * 100
      if slippage < priceImpact then (st, .err .priceImpactExceeded)
      else
        let updatedToken : Token :=
          { st.token with
            currentSupply := newSupply
            price := newPrice
            marketCap := newMarketCap }
        let record : TxRecord :=
          { userAddress := buyerAddress
            type := .BUY
            amount := tokensToReceive
            solAmount := solAmount
            price := actualPrice }
        let creatorFee := solAmount * 0.01
        -- graduation check: the route only compares `newMarketCap` with
        -- its local `GRADUATION_MARKET_CAP = 30` constant
        let finalToken : Token :=
          if (30 : ℚ) ≤ newMarketCap ∧ st.token.isGraduated = false then
            { updatedToken with isGraduated := true, graduatedAt := some now }
          else updatedToken
        ({ token := finalToken
           transactions := st.transactions ++ [record]
           creatorFees := st.creatorFees + creatorFee }, .ok)

/-- The sell route `POST` handler
(`src/app/api/tokens/[id]/sell/route.ts`) as a pure state transition. -/
def sellRoute (tokenAmount slippage : ℚ) (sellerAddress : String)
    (st : TradeState) : TradeState × TradeResult :=
  if tokenAmount ≤ 0 then (st, .err .invalidAmount)
  else if sellerAddress = "" then (st, .err .missingAddress)
  else if st.token.isGraduated then (st, .err .graduatedToken)
  else if st.token.currentSupply < tokenAmount then (st, .err .insufficientSupply)
  else
    match BondingCurve.calculateSolForTokens tokenAmount st.token.currentSupply with
    | none => (st, .err .engineFailure)
    | some solToReceive =>
      let newSupply := max 0 (st.token.currentSupply - tokenAmount)
      let newPrice := BondingCurve.calculatePrice newSupply
      let newMarketCap := max 0 (st.token.marketCap - solToReceive)
      let expectedPrice := BondingCurve.calculatePrice st.token.currentSupply
      let actualPrice := solToReceive / tokenAmount
      let priceImpact := |(expectedPrice - actualPrice) / expectedPrice| * 100
      if slippage < priceImpact then (st, .err .priceImpactExceeded)
      else
        let sellFee : ℚ := 0.05
        let solAfterFee := solToReceive * (1 - sellFee)
        let feeAmount := solToReceive * sellFee
        let record : TxRecord :=
          { userAddress := sellerAddress
            type := .SELL
            amount := tokenAmount
            solAmount := solAfterFee
            price := actualPrice }
        ({ token :=
            { st.token with
              currentSupply := newSupply
              price := newPrice
              marketCap := newMarketCap }
           transactions := st.transactions ++ [record]
           creatorFees := st.creatorFees + feeAmount }, .ok)

lemma tokensForSol_at_750M :
    BondingCurve.calculateTokensForSol 10 750000000 = some 80750000 := by
  simp only [BondingCurve.calculateTokensForSol]
  rw [if_neg (by norm_num [BondingCurve.TARGET_SUPPLY])]
  norm_num [BondingCurve.INITIAL_VIRTUAL_SOL_RESERVES,
    BondingCurve.INITIAL_VIRTUAL_TOKEN_RESERVES]

lemma price_at_750M :
    BondingCurve.calculatePrice 750000000 = 3 / 32300000 := by
  simp only [BondingCurve.calculatePrice]
  rw [if_neg (by norm_num [BondingCurve.TARGET_SUPPLY])]
  norm_num [BondingCurve.INITIAL_VIRTUAL_SOL_RESERVES,
    BondingCurve.INITIAL_VIRTUAL_TOKEN_RESERVES]

lemma price_at_830750000 :
    BondingCurve.calculatePrice 830750000 = 3 / 80000000 := by
  simp only [BondingCurve.calculatePrice]
  rw [if_pos (by norm_num [BondingCurve.TARGET_SUPPLY])]
  norm_num [BondingCurve.GRADUATION_MARKET_CAP, BondingCurve.TARGET_SUPPLY]

/-- C3 (amended): after the settle step of a successful buy the token is
graduated iff it was not already graduated and the new market cap
(`old market cap + solAmount`) reaches 30 SOL — the route does not test
`newSupply ≥ TARGET_SUPPLY`; on graduation `graduatedAt` is set to the
current time, and the flag is one-way. -/
theorem buy_graduation_amended (x sl : ℚ) (a : String) (now : ℚ)
    (st : TradeState) :
    ((buyRoute x sl a now st).2 = .ok →
      (((buyRoute x sl a now st).1.token.isGraduated = true) ↔
        (st.token.isGraduated = false ∧ 30 ≤ st.token.marketCap + x)) ∧
      ((buyRoute x sl a now st).1.token.isGraduated = true →
        (buyRoute x sl a now st).1.token.graduatedAt = some now)) ∧
    (st.token.isGraduated = true →
      (buyRoute x sl a now st).1.token.isGraduated = true) := by
  unfold buyRoute
  split_ifs with h1 h2 h3
  · simp
  · simp
  · simp [h3]
  · rcases hE : BondingCurve.calculateTokensForSol x st.token.currentSupply with _ | t
    · simp [hE, h3]
    · have h3f : st.token.isGraduated = false := by simpa using h3
      simp only [hE]
      split_ifs with h4 h5
      · simp [h3]
      · simp [h3f, h5.1]
      · have hng : ¬ ((30 : ℚ) ≤ st.token.marketCap + x) := fun hc => h5 ⟨hc, h3f⟩
        simp [h3f, hng]

/-- C3 counterexample: a successful buy that pushes `newSupply` past
`TARGET_SUPPLY` (so `shouldGraduate newSupply newMarketCap` holds) while
`newMarketCap` stays below 30 SOL does NOT graduate the token, refuting
the claimed iff with `shouldGraduate`. -/
theorem buy_graduation_counterexample :
    (buyRoute 10 100 "alice" 0
      ⟨⟨750000000, 0, 0, false, none, "c", "m"⟩, [], 0⟩).2 = .ok ∧
    (buyRoute 10 100 "alice" 0
      ⟨⟨750000000, 0, 0, false, none, "c", "m"⟩, [], 0⟩).1.token.currentSupply
        = 830750000 ∧
    BondingCurve.shouldGraduate 830750000 (0 + 10) = true ∧
    (buyRoute 10 100 "alice" 0
      ⟨⟨750000000, 0, 0, false, none, "c", "m"⟩, [], 0⟩).1.token.isGraduated
        = false := by
  have hsh : BondingCurve.shouldGraduate 830750000 (0 + 10) = true := by
    simp only [BondingCurve.shouldGraduate]
    norm_num [BondingCurve.TARGET_SUPPLY]
  refine ⟨?_, ?_, hsh, ?_⟩ <;>
    (simp only [buyRoute, tokensForSol_at_750M, price_at_750M]
     norm_num [abs_of_nonneg]
     simp)

/-- Witness for C3 (amended) at a buy that does graduate: starting market
cap 25, `solAmount = 10`, so the new market cap 35 crosses 30. -/
theorem buy_graduation_amended_witness :
    (buyRoute 10 100 "alice" 7
      ⟨⟨750000000, 0, 25, false, none, "c", "m"⟩, [], 0⟩).2 = .ok ∧
    ((((buyRoute 10 100 "alice" 7
        ⟨⟨750000000, 0, 25, false, none, "c", "m"⟩, [], 0⟩).1.token.isGraduated
          = true) ↔
      ((false : Bool) = false ∧ (30 : ℚ) ≤ 25 + 10)) ∧
     ((buyRoute 10 100 "alice" 7
        ⟨⟨750000000, 0, 25, false, none, "c", "m"⟩, [], 0⟩).1.token.isGraduated
          = true →
      (buyRoute 10 100 "alice" 7
        ⟨⟨750000000, 0, 25, false, none, "c", "m"⟩, [], 0⟩).1.token.graduatedAt
          = some 7)) := by
  have hok : (buyRoute 10 100 "alice" 7
      ⟨⟨750000000, 0, 25, false, none, "c", "m"⟩, [], 0⟩).2 = .ok := by
    simp only [buyRoute, tokensForSol_at_750M, price_at_750M]
    norm_num [abs_of_nonneg]
    simp
  exact ⟨hok, (buy_graduation_amended 10 100 "alice" 7
    ⟨⟨750000000, 0, 25, false, none, "c", "m"⟩, [], 0⟩).1 hok⟩

/-- C4: a buy or sell request that passes input validation (positive
amount, non-empty trader address) against a graduated token is rejected
with the graduated-token error, and the state — token row, transaction
list, creator fees — is returned unchanged (the rejection happens before
any engine call or write). -/
theorem graduated_token_rejected (st : TradeState)
    (hG : st.token.isGraduated = true) :
    (∀ (x sl : ℚ) (a : String) (now : ℚ), 0 < x → a ≠ "" →
      buyRoute x sl a now st = (st, .err .graduatedToken)) ∧
    (∀ (amt sl : ℚ) (a : String), 0 < amt → a ≠ "" →
      sellRoute amt sl a st = (st, .err .graduatedToken)) := by
  constructor
  · intro x sl a now hx ha
    unfold buyRoute
    rw [if_neg (not_le.mpr hx), if_neg ha, if_pos hG]
  · intro amt sl a hamt ha
    unfold sellRoute
    rw [if_neg (not_le.mpr hamt), if_neg ha, if_pos hG]

/-- Witness for C4: a concrete graduated token, buy of 1 SOL and sell of
1 token both rejected with the state unchanged. -/
theorem graduated_token_rejected_witness :
    buyRoute 1 5 "u" 0
      ⟨⟨800000000, 1, 30, true, some 3, "c", "m"⟩, [], 2⟩ =
      (⟨⟨800000000, 1, 30, true, some 3, "c", "m"⟩, [], 2⟩,
        .err .graduatedToken) ∧
    sellRoute 1 5 "u"
      ⟨⟨800000000, 1, 30, true, some 3, "c", "m"⟩, [], 2⟩ =
      (⟨⟨800000000, 1, 30, true, some 3, "c", "m"⟩, [], 2⟩,
        .err .graduatedToken) :=
  ⟨(graduated_token_rejected _ rfl).1 1 5 "u" 0 (by norm_num) (by simp),
   (graduated_token_rejected _ rfl).2 1 5 "u" (by norm_num) (by simp)⟩

/-- C5: a sell request for more tokens than `currentSupply` (token not
graduated, non-empty seller address, non-negative supply) is rejected
with the insufficient-supply error and the state is returned unchanged:
no token update, no transaction record, no creator-fee increment. -/
theorem sell_insufficient_supply (amt sl : ℚ) (a : String) (st : TradeState)
    (hG : st.token.isGraduated = false)
    (h0 : 0 ≤ st.token.currentSupply)
    (hgt : st.token.currentSupply < amt) (ha : a ≠ "") :
    sellRoute amt sl a st = (st, .err .insufficientSupply) := by
  unfold sellRoute
  rw [if_neg (not_le.mpr (lt_of_le_of_lt h0 hgt)), if_neg ha,
    if_neg (by simp [hG]), if_pos hgt]

/-- Witness for C5: selling 6 tokens when only 5 are in circulation. -/
theorem sell_insufficient_supply_witness :
    sellRoute 6 5 "u" ⟨⟨5, 1, 1, false, none, "c", "m"⟩, [], 0⟩ =
      (⟨⟨5, 1, 1, false, none, "c", "m"⟩, [], 0⟩,
        .err .insufficientSupply) :=
  sell_insufficient_supply 6 5 "u" _ rfl (by norm_num) (by norm_num) (by simp)

/-- C6: every successful buy appends a transaction record carrying the
gross `solAmount` and increments the creator-fee total by
`solAmount * 0.01`; every successful sell appends a record carrying the
net `solOut * (1 - 0.05)` and increments the creator-fee total by
`solOut * 0.05`, where `solOut` is the curve quote. -/
theorem trade_fee_accounting :
    (∀ (x sl now : ℚ) (a : String) (st st' : TradeState),
      buyRoute x sl a now st = (st', .ok) →
      ∃ rec : TxRecord,
        st'.transactions = st.transactions ++ [rec] ∧
        rec.type = .BUY ∧ rec.solAmount = x ∧
        st'.creatorFees = st.creatorFees + x * 0.01) ∧
    (∀ (amt sl : ℚ) (a : String) (st st' : TradeState),
      sellRoute amt sl a st = (st', .ok) →
      ∃ (solOut : ℚ) (rec : TxRecord),
        BondingCurve.calculateSolForTokens amt st.token.currentSupply
          = some solOut ∧
        st'.transactions = st.transactions ++ [rec] ∧
        rec.type = .SELL ∧ rec.solAmount = solOut * (1 - 0.05) ∧
        st'.creatorFees = st.creatorFees + solOut * 0.05) := by
  constructor
  · intro x sl now a st st' h
    unfold buyRoute at h
    split_ifs at h
    · simp at h
    · simp at h
    · simp at h
    · rcases hEv : BondingCurve.calculateTokensForSol x st.token.currentSupply
        with _ | t
      · rw [hEv] at h
        simp at h
      · rw [hEv] at h
        dsimp only at h
        split_ifs at h
        · simp at h
        · injection h with h1 h2
          subst h1
          exact ⟨_, rfl, rfl, rfl, rfl⟩
        · injection h with h1 h2
          subst h1
          exact ⟨_, rfl, rfl, rfl, rfl⟩
  · intro amt sl a st st' h
    unfold sellRoute at h
    split_ifs at h
    · simp at h
    · simp at h
    · simp at h
    · simp at h
    · rcases hEv : BondingCurve.calculateSolForTokens amt
          st.token.currentSupply with _ | solOut
      · rw [hEv] at h
        simp at h
      · rw [hEv] at h
        dsimp only at h
        split_ifs at h
        · simp at h
        · injection h with h1 h2
          subst h1
          exact ⟨solOut, _, rfl, rfl, rfl, rfl, rfl⟩

/-- Witness for C6: the buy part at the concrete successful buy of
10 SOL (fee 0.1 SOL) and the sell part at a concrete successful sell of
50 000 000 tokens at supply 100 000 000 (quote 500/341 SOL). -/
theorem trade_fee_accounting_witness :
    (∃ rec : TxRecord,
      (buyRoute 10 100 "alice" 0
        ⟨⟨750000000, 0, 0, false, none, "c", "m"⟩, [], 0⟩).1.transactions
        = [] ++ [rec] ∧
      rec.type = .BUY ∧ rec.solAmount = 10 ∧
      (buyRoute 10 100 "alice" 0
        ⟨⟨750000000, 0, 0, false, none, "c", "m"⟩, [], 0⟩).1.creatorFees
        = 0 + 10 * 0.01) ∧
    (∃ (solOut : ℚ) (rec : TxRecord),
      BondingCurve.calculateSolForTokens 50000000 100000000 = some solOut ∧
      (sellRoute 50000000 5 "bob"
        ⟨⟨100000000, 0, 40, false, none, "c", "m"⟩, [], 0⟩).1.transactions
        = [] ++ [rec] ∧
      rec.type = .SELL ∧ rec.solAmount = solOut * (1 - 0.05) ∧
      (sellRoute 50000000 5 "bob"
        ⟨⟨100000000, 0, 40, false, none, "c", "m"⟩, [], 0⟩).1.creatorFees
        = 0 + solOut * 0.05) := by
  have hbuy : buyRoute 10 100 "alice" 0
      ⟨⟨750000000, 0, 0, false, none, "c", "m"⟩, [], 0⟩ =
      ((buyRoute 10 100 "alice" 0
        ⟨⟨750000000, 0, 0, false, none, "c", "m"⟩, [], 0⟩).1, .ok) := by
    simp only [buyRoute, tokensForSol_at_750M, price_at_750M]
    norm_num [abs_of_nonneg]
    simp
  have hsellq : BondingCurve.calculateSolForTokens 50000000 100000000
      = some (500 / 341) := by
    simp only [BondingCurve.calculateSolForTokens]
    rw [if_neg (by norm_num [BondingCurve.TARGET_SUPPLY])]
    norm_num [BondingCurve.INITIAL_VIRTUAL_SOL_RESERVES,
      BondingCurve.INITIAL_VIRTUAL_TOKEN_RESERVES]
  have hpq : BondingCurve.calculatePrice 100000000 = 30 / 973000000 := by
    simp only [BondingCurve.calculatePrice]
    rw [if_neg (by norm_num [BondingCurve.TARGET_SUPPLY])]
    norm_num [BondingCurve.INITIAL_VIRTUAL_SOL_RESERVES,
      BondingCurve.INITIAL_VIRTUAL_TOKEN_RESERVES]
  have hsell : sellRoute 50000000 5 "bob"
      ⟨⟨100000000, 0, 40, false, none, "c", "m"⟩, [], 0⟩ =
      ((sellRoute 50000000 5 "bob"
        ⟨⟨100000000, 0, 40, false, none, "c", "m"⟩, [], 0⟩).1, .ok) := by
    simp only [sellRoute, hsellq, hpq]
    norm_num [abs_of_nonneg]
    simp
  exact ⟨trade_fee_accounting.1 10 100 0 "alice" _ _ hbuy,
    trade_fee_accounting.2 50000000 5 "bob" _ _ hsell⟩

/-- Token metadata as consumed by `RugDetector.analyzeToken`; `none`
models a missing (JavaScript `undefined`) field, `some ""` an empty one.
Both are falsy in the source's truthiness checks. -/
structure TokenMeta where
  creatorAddress : Option String
  website : Option String
  twitter : Option String
  telegram : Option String
  description : Option String
  imageUrl : Option String
  bannerUrl : Option String
  name : Option String
  symbol : Option String
  totalSupply : Option ℚ
  initialBuy : Option ℚ

namespace RugDetector

/-- JavaScript truthiness of an optional string field. -/
def truthy : Option String → Bool
  | none => false
  | some s => s != ""

/-- JavaScript string coercion (`undefined` renders as `"undefined"`
inside the `token.name + ' ' + token.symbol` concatenation). -/
def jsStr : Option String → String
  | none => "undefined"
  | some s => s

def suspiciousPatterns : List String := ["test", "123", "temp", "sample", "xxx"]

/-- JavaScript `String.prototype.includes` over character lists. -/
def containsSub (p : List Char) : List Char → Bool
  | [] => p.isPrefixOf []
  | c :: t => p.isPrefixOf (c :: t) || containsSub p t

/-- `RugDetector.analyzeToken` from `src/lib/solana.ts`. -/
def analyzeToken (token : TokenMeta) : ℕ :=
  let creatorPts : ℕ :=
    match token.creatorAddress with
    | none => 20
    | some s => if s == "" then 20
                else (if "1111".toList.isPrefixOf s.toList then 10 else 0)
  let socialLinks := [token.website, token.twitter, token.telegram].filter
    (fun v => truthy v)
  let socialPts : ℕ :=
    if socialLinks.length = 0 then 15
    else if socialLinks.length = 1 then 10
    else if socialLinks.length = 2 then 5
    else 0
  let descPts : ℕ :=
    match token.description with
    | none => 15
    | some s =>
      if s == "" then 15
      else if s.length < 20 then 10
      else if s.length < 50 then 5
      else 0
  let imagePts : ℕ := if truthy token.imageUrl then 0 else 10
  let bannerPts : ℕ := if truthy token.bannerUrl then 0 else 5
  let namePts : ℕ :=
    if !truthy token.name || (jsStr token.name).length < 3 then 5 else 0
  let symbolPts : ℕ :=
    if !truthy token.symbol || (jsStr token.symbol).length < 2 then 5 else 0
  let nameToCheck :=
    ((jsStr token.name ++ " " ++ jsStr token.symbol).toList.map Char.toLower)
  let suspiciousPts : ℕ :=
    if suspiciousPatterns.any
        (fun p => containsSub p.toList nameToCheck) then 10 else 0
  let supplyPts : ℕ :=
    match token.totalSupply with
    | none => 0
    | some v => if v != 0 && decide (1000000000000 < v) then 10 else 0
  let initialBuyPts : ℕ :=
    match token.initialBuy with
    | none => 5
    | some v => if v == 0 then 5 else 0
  let rugScore := creatorPts + socialPts + descPts + imagePts + bannerPts +
    namePts + symbolPts + suspiciousPts + supplyPts + initialBuyPts
  min rugScore 100

/-- `RugDetector.getRiskLevel` from `src/lib/solana.ts`. -/
def getRiskLevel (score : ℕ) : String :=
  if score < 15 then "VERY_LOW"
  else if score < 30 then "LOW"
  else if score < 50 then "MEDIUM"
  else if score < 70 then "HIGH"
  else if score < 85 then "VERY_HIGH"
  else "EXTREME"

end RugDetector

/-- The all-empty/missing token of claim C7. -/
def emptyMetaToken : TokenMeta :=
  { creatorAddress := none
    website := none
    twitter := none
    telegram := none
    description := none
    imageUrl := none
    bannerUrl := none
    name := some ""
    symbol := some ""
    totalSupply := none
    initialBuy := none }

/-- C7 counterexample: the all-empty token scores 80, not 100, and its
risk level is `VERY_HIGH`, not `EXTREME` (the denylist and
totalSupply rules cannot fire on empty input). -/
theorem emptyToken_score_counterexample :
    RugDetector.analyzeToken emptyMetaToken = 80 ∧
    RugDetector.analyzeToken emptyMetaToken ≠ 100 ∧
    RugDetector.getRiskLevel (RugDetector.analyzeToken emptyMetaToken)
      ≠ "EXTREME" := by
  refine ⟨by decide, by decide, ?_⟩
  decide

/-- C7 (amended): a token with every metadata field empty or missing
scores exactly 80 and is rated `VERY_HIGH`. -/
theorem emptyToken_score :
    RugDetector.analyzeToken emptyMetaToken = 80 ∧
    RugDetector.getRiskLevel (RugDetector.analyzeToken emptyMetaToken)
      = "VERY_HIGH" := by
  constructor
  · decide
  · decide

/-- A persisted `Transaction` row as consumed by the read-side
projections (holders, price history). -/
structure Tx where
  userAddress : String
  type : TxType
  amount : ℚ
  price : Option ℚ
  solAmount : ℚ
  createdAt : ℤ
deriving DecidableEq

/-- Insertion-ordered map update, modelling the JavaScript `Map`
idiom `if (!map.has(k)) map.set(k, init); mutate(map.get(k))`:
the first entry with the key is updated in place, otherwise a fresh
entry `f init` is appended. -/
def upsertWith {K V : Type} [DecidableEq K] (key : K) (f : V → V) (init : V) :
    List (K × V) → List (K × V)
  | [] => [(key, f init)]
  | (k, v) :: rest =>
    if k = key then (k, f v) :: rest else (k, v) :: upsertWith key f init rest

/-- First-match association-list lookup (`Map.get`). -/
def lookupA {K V : Type} [DecidableEq K] : List (K × V) → K → Option V
  | [], _ => none
  | (k', v) :: rest, k => if k' = k then some v else lookupA rest k

namespace HolderLedger

/-- The per-address accumulator built by `calculateRealTimeHolders`
(the unnamed holders route source file). -/
structure UserAcc where
  totalBought : ℚ
  totalSold : ℚ
  totalSolSpent : ℚ
  totalSolReceived : ℚ
  firstBuy : Option ℤ
  lastActivity : ℤ
  txCount : ℕ
deriving DecidableEq

/-- Fresh accumulator for an address first seen at transaction `tx`. -/
def initAcc (tx : Tx) : UserAcc :=
  { totalBought := 0
    totalSold := 0
    totalSolSpent := 0
    totalSolReceived := 0
    firstBuy := none
    lastActivity := tx.createdAt
    txCount := 0 }

/-- One transaction applied to an address accumulator. -/
def updAcc (tx : Tx) (u : UserAcc) : UserAcc :=
  let u1 :=
    if tx.type = TxType.BUY then
      { u with
        totalBought := u.totalBought + tx.amount
        totalSolSpent := u.totalSolSpent + tx.solAmount
        firstBuy := match u.firstBuy with
          | none => some tx.createdAt
          | some t => some t }
    else
      { u with
        totalSold := u.totalSold + tx.amount
        totalSolReceived := u.totalSolReceived + tx.solAmount }
  let u2 := { u1 with txCount := u1.txCount + 1 }
  if u2.lastActivity < tx.createdAt then { u2 with lastActivity := tx.createdAt }
  else u2

def holderStep (m : List (String × UserAcc)) (tx : Tx) :
    List (String × UserAcc) :=
  upsertWith tx.userAddress (updAcc tx) (initAcc tx) m

/-- The grouping loop of `calculateRealTimeHolders`. -/
def processTxs (txs : List Tx) : List (String × UserAcc) :=
  txs.foldl holderStep []

structure HolderData where
  address : String
  balance : ℚ
  percentage : ℚ
  value : ℚ
  firstBuy : ℤ
  lastActivity : ℤ
  totalBought : ℚ
  totalSold : ℚ
  averageBuyPrice : ℚ
  unrealizedPNL : ℚ
  realizedPNL : ℚ
  transactionCount : ℕ
  isWhale : Bool
deriving DecidableEq

/-- Holder row built from an accumulator with positive balance. -/
def mkHolder (currentPrice totalSupply : ℚ) (addr : String) (u : UserAcc) :
    HolderData :=
  let balance := u.totalBought - u.totalSold
  let percentage := if 0 < totalSupply then balance / totalSupply * 100 else 0
  let value := balance * currentPrice
  let averageBuyPrice :=
    if 0 < u.totalSolSpent then u.totalSolSpent / u.totalBought else 0
  let unrealizedPNL := (currentPrice - averageBuyPrice) * balance
  let averageSellPrice :=
    if 0 < u.totalSold then u.totalSolReceived / u.totalSold else 0
  let realizedPNL :=
    if 0 < u.totalSold then (averageSellPrice - averageBuyPrice) * u.totalSold
    else 0
  { address := addr
    balance := balance
    percentage := percentage
    value := value
    firstBuy := u.firstBuy.getD u.lastActivity
    lastActivity := u.lastActivity
    totalBought := u.totalBought
    totalSold := u.totalSold
    averageBuyPrice := averageBuyPrice
    unrealizedPNL := unrealizedPNL
    realizedPNL := realizedPNL
    transactionCount := u.txCount
    isWhale := decide (1 < percentage) || decide (10000 < value) }

/-- Descending-balance order used by the holders sort. -/
def balGE (a b : HolderData) : Prop := b.balance ≤ a.balance

instance : DecidableRel balGE := fun a b =>
  inferInstanceAs (Decidable (b.balance ≤ a.balance))

instance : IsTotal HolderData balGE := ⟨fun a b => le_total b.balance a.balance⟩

instance : IsTrans HolderData balGE := ⟨fun _ _ _ hab hbc => le_trans hbc hab⟩

/-- `calculateRealTimeHolders` (the unnamed holders route source file):
group the token's transactions by address, keep positive balances,
sort by balance descending, return the top 100. -/
def calculateRealTimeHolders (txs : List Tx) (currentPrice totalSupply : ℚ) :
    List HolderData :=
  let m := processTxs txs
  let holders :=
    (m.filter (fun p => 0 < p.2.totalBought - p.2.totalSold)).map
      (fun p => mkHolder currentPrice totalSupply p.1 p.2)
  (List.insertionSort balGE holders).take 100

/-- Sum of the BUY amounts of `addr` in `txs` (the claimed balance
specification). -/
def buyTotal (txs : List Tx) (addr : String) : ℚ :=
  (((txs.filter (fun tx => tx.userAddress = addr)).filter
      (fun tx => tx.type = TxType.BUY)).map Tx.amount).sum

/-- Sum of the SELL amounts of `addr` in `txs`. -/
def sellTotal (txs : List Tx) (addr : String) : ℚ :=
  (((txs.filter (fun tx => tx.userAddress = addr)).filter
      (fun tx => ¬ tx.type = TxType.BUY)).map Tx.amount).sum

end HolderLedger

lemma lookupA_upsertWith {K V : Type} [DecidableEq K] (key k : K)
    (f : V → V) (init : V) (m : List (K × V)) :
    lookupA (upsertWith key f init m) k =
      if k = key then some (f ((lookupA m key).getD init))
      else lookupA m k := by
  induction m with
  | nil =>
    simp only [upsertWith, lookupA]
    by_cases h : k = key
    · subst h
      simp
    · rw [if_neg (fun hc : key = k => h hc.symm), if_neg h]
  | cons p rest ih =>
    obtain ⟨k', v⟩ := p
    by_cases hk : k' = key
    · subst hk
      by_cases hkk : k' = k
      · subst hkk
        simp [upsertWith, lookupA]
      · rw [upsertWith, if_pos rfl]
        simp only [lookupA, if_neg hkk]
        rw [if_neg (fun hc : k = k' => hkk hc.symm)]
    · by_cases hkk : k' = k
      · subst hkk
        rw [upsertWith, if_neg hk]
        simp [lookupA, hk]
      · rw [upsertWith, if_neg hk]
        simp [lookupA, hk, hkk, ih]

lemma keys_upsertWith {K V : Type} [DecidableEq K] (key : K)
    (f : V → V) (init : V) (m : List (K × V)) :
    (upsertWith key f init m).map Prod.fst =
      if key ∈ m.map Prod.fst then m.map Prod.fst
      else m.map Prod.fst ++ [key] := by
  induction m with
  | nil => simp [upsertWith]
  | cons p rest ih =>
    obtain ⟨k', v⟩ := p
    by_cases hk : k' = key
    · subst hk
      simp [upsertWith]
    · simp only [upsertWith, if_neg hk, List.map_cons, ih]
      by_cases hmem : key ∈ rest.map Prod.fst
      · rw [if_pos hmem, if_pos (List.mem_cons.mpr (Or.inr hmem))]
      · rw [if_neg hmem, if_neg (by
          intro hc
          rcases List.mem_cons.mp hc with hc | hc
          · exact hk hc.symm
          · exact hmem hc)]
        simp

lemma nodupKeys_upsertWith {K V : Type} [DecidableEq K] (key : K)
    (f : V → V) (init : V) (m : List (K × V))
    (h : (m.map Prod.fst).Nodup) :
    ((upsertWith key f init m).map Prod.fst).Nodup := by
  rw [keys_upsertWith]
  by_cases hmem : key ∈ m.map Prod.fst
  · simpa [hmem] using h
  · simp only [if_neg hmem]
    simp [List.nodup_append, h, hmem]

lemma nodupKeys_foldl_holderStep (txs : List Tx)
    (m : List (String × HolderLedger.UserAcc))
    (h : (m.map Prod.fst).Nodup) :
    ((txs.foldl HolderLedger.holderStep m).map Prod.fst).Nodup := by
  induction txs generalizing m with
  | nil => simpa using h
  | cons tx rest ih =>
    exact ih _ (nodupKeys_upsertWith _ _ _ _ h)

lemma lookupA_eq_some_of_mem {K V : Type} [DecidableEq K]
    (m : List (K × V)) (k : K) (v : V)
    (hnd : (m.map Prod.fst).Nodup) (hmem : (k, v) ∈ m) :
    lookupA m k = some v := by
  induction m with
  | nil => simp at hmem
  | cons p rest ih =>
    obtain ⟨k', v'⟩ := p
    simp only [List.map_cons, List.nodup_cons] at hnd
    rcases List.mem_cons.mp hmem with heq | htail
    · injection heq with hk hv
      subst hk
      subst hv
      simp [lookupA]
    · have hk : k' ≠ k := by
        intro hc
        subst hc
        exact hnd.1 (List.mem_map.mpr ⟨(k', v), htail, rfl⟩)
      simp only [lookupA, if_neg hk]
      exact ih hnd.2 htail

lemma lookupA_foldl_holderStep (txs : List Tx)
    (m : List (String × HolderLedger.UserAcc)) (addr : String) :
    lookupA (txs.foldl HolderLedger.holderStep m) addr =
      (txs.filter (fun tx => tx.userAddress = addr)).foldl
        (fun o tx => some (HolderLedger.updAcc tx
          (o.getD (HolderLedger.initAcc tx)))) (lookupA m addr) := by
  induction txs generalizing m with
  | nil => simp
  | cons tx rest ih =>
    simp only [List.foldl_cons, List.filter_cons, decide_eq_true_eq]
    by_cases haddr : tx.userAddress = addr
    · rw [if_pos haddr, List.foldl_cons, ih]
      congr 1
      rw [HolderLedger.holderStep, lookupA_upsertWith, haddr]
      simp
    · rw [if_neg haddr, ih]
      congr 1
      rw [HolderLedger.holderStep, lookupA_upsertWith,
        if_neg (fun hc : addr = tx.userAddress => haddr hc.symm)]

namespace HolderLedger

lemma updAcc_totalBought (tx : Tx) (u : UserAcc) :
    (updAcc tx u).totalBought =
      if tx.type = TxType.BUY then u.totalBought + tx.amount
      else u.totalBought := by
  simp only [updAcc]
  split_ifs <;> rfl

lemma updAcc_totalSold (tx : Tx) (u : UserAcc) :
    (updAcc tx u).totalSold =
      if tx.type = TxType.BUY then u.totalSold
      else u.totalSold + tx.amount := by
  simp only [updAcc]
  split_ifs <;> rfl

/-- `totalBought` of an optional accumulator (0 when absent). -/
def optBought : Option UserAcc → ℚ
  | none => 0
  | some u => u.totalBought

/-- `totalSold` of an optional accumulator (0 when absent). -/
def optSold : Option UserAcc → ℚ
  | none => 0
  | some u => u.totalSold

lemma fold_bought (l : List Tx) (o : Option UserAcc) :
    optBought (l.foldl
        (fun o tx => some (updAcc tx (o.getD (initAcc tx)))) o)
      = optBought o
        + ((l.filter (fun tx => tx.type = TxType.BUY)).map Tx.amount).sum := by
  induction l generalizing o with
  | nil => simp
  | cons tx rest ih =>
    simp only [List.foldl_cons, List.filter_cons, decide_eq_true_eq]
    rw [ih]
    have hbase : (o.getD (initAcc tx)).totalBought = optBought o := by
      cases o <;> rfl
    by_cases hty : tx.type = TxType.BUY
    · rw [if_pos hty]
      simp only [List.map_cons, List.sum_cons, optBought,
        updAcc_totalBought, if_pos hty, hbase]
      ring
    · rw [if_neg hty]
      simp only [optBought, updAcc_totalBought, if_neg hty, hbase]

lemma fold_sold (l : List Tx) (o : Option UserAcc) :
    optSold (l.foldl
        (fun o tx => some (updAcc tx (o.getD (initAcc tx)))) o)
      = optSold o
        + ((l.filter (fun tx => ¬ tx.type = TxType.BUY)).map Tx.amount).sum := by
  induction l generalizing o with
  | nil => simp
  | cons tx rest ih =>
    simp only [List.foldl_cons, List.filter_cons, decide_eq_true_eq]
    rw [ih]
    have hbase : (o.getD (initAcc tx)).totalSold = optSold o := by
      cases o <;> rfl
    by_cases hty : tx.type = TxType.BUY
    · rw [if_neg (by simpa using hty)]
      simp only [optSold, updAcc_totalSold, if_pos hty, hbase]
    · rw [if_pos (by simpa using hty)]
      simp only [List.map_cons, List.sum_cons, optSold,
        updAcc_totalSold, if_neg hty, hbase]
      ring

/-- The concrete transaction list of claim C8. -/
def exampleTxs : List Tx :=
  [⟨"addr1", .BUY, 100, some 1, 10, 1⟩,
   ⟨"addr1", .BUY, 50, some 1, 5, 2⟩,
   ⟨"addr1", .SELL, 30, some 1, 3, 3⟩]

end HolderLedger

open HolderLedger in
/-- C8: every holder in the output has balance = (sum of its BUY
amounts) − (sum of its SELL amounts) and that balance is positive
(addresses with balance ≤ 0 are excluded); the output is sorted
descending by balance and capped at 100 entries; the concrete list
`[BUY addr1 100, BUY addr1 50, SELL addr1 30]` yields exactly
balance 120 for `addr1`. -/
theorem holders_spec (txs : List Tx) (currentPrice totalSupply : ℚ) :
    (∀ h ∈ calculateRealTimeHolders txs currentPrice totalSupply,
      h.balance = buyTotal txs h.address - sellTotal txs h.address ∧
        0 < h.balance) ∧
    List.Sorted balGE (calculateRealTimeHolders txs currentPrice totalSupply) ∧
    (calculateRealTimeHolders txs currentPrice totalSupply).length ≤ 100 ∧
    (calculateRealTimeHolders exampleTxs 1 1000).map
      (fun h => (h.address, h.balance)) = [("addr1", 120)] := by
  refine ⟨?_, ?_, ?_, ?_⟩
  · intro h hmem
    simp only [calculateRealTimeHolders] at hmem
    have hmem2 := List.Sublist.mem hmem (List.take_sublist _ _)
    rw [List.mem_insertionSort] at hmem2
    obtain ⟨p, hpfil, hph⟩ := List.mem_map.mp hmem2
    obtain ⟨hpmem, hppos⟩ := List.mem_filter.mp hpfil
    have hnd : ((processTxs txs).map Prod.fst).Nodup :=
      nodupKeys_foldl_holderStep txs [] (by simp)
    have hlk : lookupA (processTxs txs) p.1 = some p.2 :=
      lookupA_eq_some_of_mem _ _ _ hnd hpmem
    rw [processTxs, lookupA_foldl_holderStep] at hlk
    simp only [lookupA] at hlk
    have hb := fold_bought (txs.filter (fun tx => tx.userAddress = p.1)) none
    have hs := fold_sold (txs.filter (fun tx => tx.userAddress = p.1)) none
    rw [hlk] at hb hs
    simp only [optBought, optSold, zero_add] at hb hs
    have haddr : h.address = p.1 := by rw [← hph]; rfl
    have hbal : h.balance = p.2.totalBought - p.2.totalSold := by
      rw [← hph]; rfl
    constructor
    · rw [hbal, haddr, buyTotal, sellTotal, ← hb, ← hs]
    · rw [hbal]
      simpa using hppos
  · exact List.Pairwise.sublist (List.take_sublist _ _)
      (List.sorted_insertionSort balGE _)
  · exact List.length_take_le _ _
  · norm_num [calculateRealTimeHolders, processTxs, holderStep, upsertWith,
      updAcc, initAcc, exampleTxs, mkHolder, List.insertionSort,
      List.orderedInsert]
    norm_num [show TxType.SELL ≠ TxType.BUY from fun h => by cases h]

/-- Witness for C8: the holder produced by the concrete example list
satisfies the balance specification. -/
theorem holders_spec_witness :
    ∃ h ∈ HolderLedger.calculateRealTimeHolders HolderLedger.exampleTxs 1 1000,
      h.balance = HolderLedger.buyTotal HolderLedger.exampleTxs h.address
        - HolderLedger.sellTotal HolderLedger.exampleTxs h.address ∧
      0 < h.balance := by
  have hmap := (holders_spec HolderLedger.exampleTxs 1 1000).2.2.2
  cases houtput : HolderLedger.calculateRealTimeHolders
      HolderLedger.exampleTxs 1 1000 with
  | nil =>
    rw [houtput] at hmap
    simp at hmap
  | cons h t =>
    have hm : h ∈ HolderLedger.calculateRealTimeHolders
        HolderLedger.exampleTxs 1 1000 := by
      rw [houtput]
      exact List.mem_cons_self _ _
    exact ⟨h, List.mem_cons_self _ _,
      (holders_spec HolderLedger.exampleTxs 1 1000).1 h hm⟩

namespace PriceHistory

/-- 15-minute bucket width in milliseconds
(`src/app/api/tokens/[id]/price-history/route.ts`). -/
def intervalMs : ℤ := 900000

/-- Effective price of a transaction: the `price` field when truthy
(present and non-zero), else `solAmount / max(amount, 0.000001)`. -/
def effPrice (tx : Tx) : ℚ :=
  match tx.price with
  | some p => if p = 0 then tx.solAmount / max tx.amount 0.000001 else p
  | none => tx.solAmount / max tx.amount 0.000001

/-- `Math.floor(txTime / intervalMs) * intervalMs`. -/
def bucketOf (tx : Tx) : ℤ := (Int.fdiv tx.createdAt intervalMs) * intervalMs

/-- Per-bucket accumulator of the aggregation loop. -/
structure BucketAcc where
  prices : List ℚ
  volumes : List ℚ
  transactions : ℕ
  timestamp : ℤ
deriving DecidableEq

def initBucket (t : ℤ) : BucketAcc :=
  { prices := [], volumes := [], transactions := 0, timestamp := t }

def updBucket (tx : Tx) (b : BucketAcc) : BucketAcc :=
  { b with
    prices := b.prices ++ [effPrice tx]
    volumes := b.volumes ++ [tx.solAmount]
    transactions := b.transactions + 1 }

/-- One transaction folded into the bucket map: trades with
non-positive or ≥ 1e6 effective price are discarded. -/
def priceStep (m : List (ℤ × BucketAcc)) (tx : Tx) : List (ℤ × BucketAcc) :=
  if 0 < effPrice tx ∧ effPrice tx < 1000000 then
    upsertWith (bucketOf tx) (updBucket tx) (initBucket (bucketOf tx)) m
  else m

def groupTxs (txs : List Tx) : List (ℤ × BucketAcc) := txs.foldl priceStep []

/-- An output price point (the locale-formatted `time` display string is
presentational and omitted). -/
structure PricePoint where
  price : ℚ
  volume : ℚ
  transactions : ℕ
  timestamp : ℤ
deriving DecidableEq

/-- VWAP of a bucket, falling back to the simple mean of the prices
when the total volume is not positive. -/
def mkPoint (b : BucketAcc) : PricePoint :=
  let totalVolume := b.volumes.sum
  let vwap :=
    if 0 < totalVolume then
      (List.zipWith (fun p v => p * v) b.prices b.volumes).sum / totalVolume
    else b.prices.sum / (b.prices.length : ℚ)
  { price := vwap
    volume := totalVolume
    transactions := b.transactions
    timestamp := b.timestamp }

/-- Ascending bucket-timestamp order of the output. -/
def tsLE (a b : PricePoint) : Prop := a.timestamp ≤ b.timestamp

instance : DecidableRel tsLE := fun a b =>
  inferInstanceAs (Decidable (a.timestamp ≤ b.timestamp))

instance : IsTotal PricePoint tsLE := ⟨fun a b => le_total a.timestamp b.timestamp⟩

instance : IsTrans PricePoint tsLE := ⟨fun _ _ _ => le_trans⟩

/-- `generateRealTimePriceHistory`
(`src/app/api/tokens/[id]/price-history/route.ts`): group the window's
transactions into 15-minute buckets, compute VWAP (or mean) per bucket,
sort ascending by bucket timestamp. -/
def generateRealTimePriceHistory (txs : List Tx) : List PricePoint :=
  List.insertionSort tsLE ((groupTxs txs).map (fun p => mkPoint p.2))

/-- The trades of `txs` that pass the price filter and fall into
bucket `t` — the reference grouping of the claim. -/
def bucketTrades (txs : List Tx) (t : ℤ) : List Tx :=
  txs.filter (fun tx =>
    (0 < effPrice tx ∧ effPrice tx < 1000000) ∧ bucketOf tx = t)

/-- The claimed per-bucket price: VWAP, or simple mean when the
bucket's total volume is not positive. -/
def vwapOf (l : List Tx) : ℚ :=
  let vols := l.map Tx.solAmount
  let prices := l.map effPrice
  if 0 < vols.sum then
    (List.zipWith (fun p v => p * v) prices vols).sum / vols.sum
  else prices.sum / (prices.length : ℚ)

end PriceHistory

namespace PriceHistory

lemma nodupKeys_foldl_priceStep (txs : List Tx)
    (m : List (ℤ × BucketAcc)) (h : (m.map Prod.fst).Nodup) :
    ((txs.foldl priceStep m).map Prod.fst).Nodup := by
  induction txs generalizing m with
  | nil => simpa using h
  | cons tx rest ih =>
    simp only [List.foldl_cons]
    apply ih
    rw [priceStep]
    split_ifs with hp
    · exact nodupKeys_upsertWith _ _ _ _ h
    · exact h

lemma lookupA_foldl_priceStep (txs : List Tx)
    (m : List (ℤ × BucketAcc)) (t : ℤ) :
    lookupA (txs.foldl priceStep m) t =
      (txs.filter (fun tx =>
          (0 < effPrice tx ∧ effPrice tx < 1000000) ∧ bucketOf tx = t)).foldl
        (fun o tx => some (updBucket tx
          (o.getD (initBucket (bucketOf tx))))) (lookupA m t) := by
  induction txs generalizing m with
  | nil => simp
  | cons tx rest ih =>
    simp only [List.foldl_cons, List.filter_cons, decide_eq_true_eq]
    by_cases hp : 0 < effPrice tx ∧ effPrice tx < 1000000
    · by_cases hb : bucketOf tx = t
      · rw [if_pos ⟨hp, hb⟩, List.foldl_cons, ih]
        congr 1
        rw [priceStep, if_pos hp, lookupA_upsertWith, hb]
        simp
      · rw [if_neg (fun hc => hb hc.2), ih]
        congr 1
        rw [priceStep, if_pos hp, lookupA_upsertWith,
          if_neg (fun hc : t = bucketOf tx => hb hc.symm)]
    · rw [if_neg (fun hc => hp hc.1), ih]
      congr 1
      rw [priceStep, if_neg hp]

/-- `prices` of an optional bucket accumulator. -/
def optPrices : Option BucketAcc → List ℚ
  | none => []
  | some b => b.prices

/-- `volumes` of an optional bucket accumulator. -/
def optVolumes : Option BucketAcc → List ℚ
  | none => []
  | some b => b.volumes

/-- `transactions` of an optional bucket accumulator. -/
def optCount : Option BucketAcc → ℕ
  | none => 0
  | some b => b.transactions

lemma fold_prices (l : List Tx) (o : Option BucketAcc) :
    optPrices (l.foldl
        (fun o tx => some (updBucket tx (o.getD (initBucket (bucketOf tx))))) o)
      = optPrices o ++ l.map effPrice := by
  induction l generalizing o with
  | nil => simp
  | cons tx rest ih =>
    simp only [List.foldl_cons, List.map_cons]
    rw [ih]
    have hbase : (o.getD (initBucket (bucketOf tx))).prices = optPrices o := by
      cases o <;> rfl
    simp [optPrices, updBucket, hbase]

lemma fold_volumes (l : List Tx) (o : Option BucketAcc) :
    optVolumes (l.foldl
        (fun o tx => some (updBucket tx (o.getD (initBucket (bucketOf tx))))) o)
      = optVolumes o ++ l.map Tx.solAmount := by
  induction l generalizing o with
  | nil => simp
  | cons tx rest ih =>
    simp only [List.foldl_cons, List.map_cons]
    rw [ih]
    have hbase : (o.getD (initBucket (bucketOf tx))).volumes = optVolumes o := by
      cases o <;> rfl
    simp [optVolumes, updBucket, hbase]

lemma fold_count (l : List Tx) (o : Option BucketAcc) :
    optCount (l.foldl
        (fun o tx => some (updBucket tx (o.getD (initBucket (bucketOf tx))))) o)
      = optCount o + l.length := by
  induction l generalizing o with
  | nil => simp
  | cons tx rest ih =>
    simp only [List.foldl_cons, List.length_cons]
    rw [ih]
    have hbase : (o.getD (initBucket (bucketOf tx))).transactions = optCount o := by
      cases o <;> rfl
    simp only [optCount, updBucket, hbase]
    omega

lemma fold_timestamp (t : ℤ) (l : List Tx) (o : Option BucketAcc)
    (hl : ∀ tx ∈ l, bucketOf tx = t)
    (ho : ∀ b', o = some b' → b'.timestamp = t) (b : BucketAcc)
    (hfold : l.foldl
        (fun o tx => some (updBucket tx (o.getD (initBucket (bucketOf tx))))) o
      = some b) :
    b.timestamp = t := by
  induction l generalizing o with
  | nil =>
    exact ho b hfold
  | cons tx rest ih =>
    simp only [List.foldl_cons] at hfold
    refine ih _ (fun tx' h' => hl tx' (List.mem_cons_of_mem _ h')) ?_ hfold
    intro b' hb'
    injection hb' with hb'
    rw [← hb']
    have hts : (o.getD (initBucket (bucketOf tx))).timestamp = t := by
      cases o with
      | none => simpa [initBucket] using hl tx (List.mem_cons_self _ _)
      | some bb => exact ho bb rfl
    simpa [updBucket] using hts

end PriceHistory

/-- The concrete bucket scenario of claim C9: three trades at prices
0.001, 0.002, 0.003 with volumes 1, 1, 2 inside one 15-minute bucket. -/
def vwapExampleTxs : List Tx :=
  [⟨"a", .BUY, 1000, some 0.001, 1, 0⟩,
   ⟨"b", .BUY, 1000, some 0.002, 1, 1000⟩,
   ⟨"c", .BUY, 1000, some 0.003, 2, 2000⟩]

/-- A trade whose effective price is exactly 1e6. -/
def boundaryTx : Tx := ⟨"d", TxType.BUY, 1, some 1000000, 5, 0⟩

open PriceHistory in
/-- C9 (amended): every output point's price is the VWAP of its bucket's
kept trades (simple mean when the bucket's total volume is not
positive), where a trade is kept only when its effective price is
strictly between 0 and 1e6 (a price of exactly 1e6 is discarded); the
output is sorted ascending by bucket timestamp; the concrete scenario
with prices [0.001, 0.002, 0.003] and volumes [1, 1, 2] yields
VWAP = 0.00225. -/
theorem priceHistory_spec (txs : List Tx) :
    (∀ pt ∈ generateRealTimePriceHistory txs,
      pt.price = vwapOf (bucketTrades txs pt.timestamp) ∧
      pt.volume = ((bucketTrades txs pt.timestamp).map Tx.solAmount).sum ∧
      pt.transactions = (bucketTrades txs pt.timestamp).length) ∧
    List.Sorted tsLE (generateRealTimePriceHistory txs) ∧
    (generateRealTimePriceHistory vwapExampleTxs).map
      (fun pt => (pt.price, pt.volume, pt.transactions)) =
      [((0.00225 : ℚ), (4 : ℚ), 3)] := by
  refine ⟨?_, ?_, ?_⟩
  · intro pt hpt
    rw [generateRealTimePriceHistory, List.mem_insertionSort] at hpt
    obtain ⟨p, hpmem, hph⟩ := List.mem_map.mp hpt
    have hnd : ((groupTxs txs).map Prod.fst).Nodup :=
      nodupKeys_foldl_priceStep txs [] (by simp)
    have hlk : lookupA (groupTxs txs) p.1 = some p.2 :=
      lookupA_eq_some_of_mem _ _ _ hnd hpmem
    rw [groupTxs, lookupA_foldl_priceStep] at hlk
    simp only [lookupA] at hlk
    have htts : p.2.timestamp = p.1 := by
      refine fold_timestamp p.1 _ none ?_ (by simp) p.2 hlk
      intro tx hm
      have := List.of_mem_filter hm
      simp only [decide_eq_true_eq] at this
      exact this.2
    have hpr := fold_prices (txs.filter (fun tx =>
      (0 < effPrice tx ∧ effPrice tx < 1000000) ∧ bucketOf tx = p.1)) none
    have hvol := fold_volumes (txs.filter (fun tx =>
      (0 < effPrice tx ∧ effPrice tx < 1000000) ∧ bucketOf tx = p.1)) none
    have hcnt := fold_count (txs.filter (fun tx =>
      (0 < effPrice tx ∧ effPrice tx < 1000000) ∧ bucketOf tx = p.1)) none
    rw [hlk] at hpr hvol hcnt
    simp only [optPrices, optVolumes, optCount, List.nil_append,
      zero_add] at hpr hvol hcnt
    subst hph
    have hts2 : (mkPoint p.2).timestamp = p.1 := by
      simpa [mkPoint] using htts
    rw [hts2]
    refine ⟨?_, ?_, ?_⟩
    · simp only [mkPoint, vwapOf, bucketTrades]
      rw [hpr, hvol]
    · simp only [mkPoint, bucketTrades]
      rw [hvol]
    · simp only [mkPoint, bucketTrades]
      rw [hcnt]
  · exact List.sorted_insertionSort tsLE _
  · have h1 : Int.fdiv 0 900000 = 0 := by decide
    have h2 : Int.fdiv 1000 900000 = 0 := by decide
    have h3 : Int.fdiv 2000 900000 = 0 := by decide
    norm_num [generateRealTimePriceHistory, groupTxs, priceStep, upsertWith,
      updBucket, initBucket, mkPoint, effPrice, bucketOf, intervalMs,
      vwapExampleTxs, List.insertionSort, List.orderedInsert, h1, h2, h3]

open PriceHistory in
/-- C9 counterexample: the claimed concrete VWAP is wrong —
`(0.001*1 + 0.002*1 + 0.003*2) / 4 = 0.00225`, not `0.0025` — and a
trade with effective price exactly 1e6 (neither non-positive nor
greater than 1e6) is nonetheless discarded by the aggregator. -/
theorem priceHistory_counterexample :
    ((generateRealTimePriceHistory vwapExampleTxs).map
        (fun pt => (pt.price, pt.volume)) = [((0.00225 : ℚ), (4 : ℚ))] ∧
      (0.00225 : ℚ) ≠ 0.0025) ∧
    (effPrice boundaryTx = 1000000 ∧
      ¬ effPrice boundaryTx ≤ 0 ∧ ¬ (1000000 : ℚ) < effPrice boundaryTx ∧
      generateRealTimePriceHistory [boundaryTx] = []) := by
  have h1 : Int.fdiv 0 900000 = 0 := by decide
  have h2 : Int.fdiv 1000 900000 = 0 := by decide
  have h3 : Int.fdiv 2000 900000 = 0 := by decide
  have heff : effPrice boundaryTx = 1000000 := by
    norm_num [effPrice, boundaryTx]
  refine ⟨⟨?_, by norm_num⟩, heff, by rw [heff]; norm_num,
    by rw [heff]; norm_num, ?_⟩
  · norm_num [generateRealTimePriceHistory, groupTxs, priceStep, upsertWith,
      updBucket, initBucket, mkPoint, effPrice, bucketOf, intervalMs,
      vwapExampleTxs, List.insertionSort, List.orderedInsert, h1, h2, h3]
  · norm_num [generateRealTimePriceHistory, groupTxs, priceStep, heff,
      List.insertionSort]

open PriceHistory in
/-- Witness for C9 (amended): the point produced by the concrete
scenario satisfies the per-bucket specification. -/
theorem priceHistory_spec_witness :
    ∃ pt ∈ generateRealTimePriceHistory vwapExampleTxs,
      pt.price = vwapOf (bucketTrades vwapExampleTxs pt.timestamp) ∧
      pt.volume =
        ((bucketTrades vwapExampleTxs pt.timestamp).map Tx.solAmount).sum ∧
      pt.transactions = (bucketTrades vwapExampleTxs pt.timestamp).length := by
  have hmap := (priceHistory_spec vwapExampleTxs).2.2
  cases hout : generateRealTimePriceHistory vwapExampleTxs with
  | nil =>
    rw [hout] at hmap
    simp at hmap
  | cons pt rest =>
    have hm : pt ∈ generateRealTimePriceHistory vwapExampleTxs := by
      rw [hout]
      exact List.mem_cons_self _ _
    exact ⟨pt, List.mem_cons_self _ _,
      (priceHistory_spec vwapExampleTxs).1 pt hm⟩
